import Mathlib

/-!
# NexusShell core: shallow embedding and verification

This file embeds the JavaScript core of the NexusShell prototype
(`src/core/security-context.js`, `src/core/command-engine.js`,
`src/core/object-bridge.js`, the `NexusShell` class and the
`ExecutionRecorder` class) as executable Lean definitions, and proves or
refutes the specified properties of the permission store, the command
engine, the bridge surfaces, transactions and the execution recorder.

Conventions of the embedding:
* JavaScript `Map` objects (which preserve insertion order and update
  values in place) are modelled as association lists with an
  order-preserving `assocSet`.
* Timestamps (`Date.now()`) are passed in explicitly as `Nat` arguments.
* Methods that `throw` before mutating any state are modelled as returning
  the unchanged state together with `some errorMessage` (or `Except.error`).
* Host I/O (the actual file system, `process.kill`, JSON persistence,
  `captureSystemState`) is outside the model; its *invocation* is recorded
  in the result (e.g. a `performed` flag), its payload is not.
-/

namespace NexusShell

/-- Order-preserving update of an association list, as JavaScript
`Map.prototype.set` / object property assignment behaves: an existing key
keeps its position and gets the new value, a new key is appended at the
end. -/
def assocSet {κ α : Type} [DecidableEq κ] : List (κ × α) → κ → α → List (κ × α)
  | [], k, v => [(k, v)]
  | (k', v') :: rest, k, v =>
    if k' = k then (k, v) :: rest else (k', v') :: assocSet rest k v

/-- First value stored under a key, as `Map.prototype.get` /
`Map.prototype.has`. -/
def assocGet {κ α : Type} [DecidableEq κ] : List (κ × α) → κ → Option α
  | [], _ => none
  | (k', v) :: rest, k => if k' = k then some v else assocGet rest k

theorem assocGet_assocSet_self {κ α : Type} [DecidableEq κ]
    (m : List (κ × α)) (k : κ) (v : α) :
    assocGet (assocSet m k v) k = some v := by
  induction m with
  | nil => simp [assocSet, assocGet]
  | cons hd tl ih =>
    obtain ⟨k', v'⟩ := hd
    by_cases h : k' = k
    · simp [assocSet, assocGet, h]
    · simp [assocSet, assocGet, h, ih]

/-! ## The permission-pattern regular expressions

`SecurityContext.hasPermission` turns a stored pattern into a JavaScript
regular expression with `perm.replace('*', '.*')` — note that a string
`replace` argument replaces only the *first* `*` — and then runs the
unanchored `RegExp.prototype.test` against the queried permission.

The repository's patterns are built from letters, digits, `:`, `/`, `.`
and `*`, so the regex fragment we interpret is: a literal character, `.`
(any character except a line terminator), and postfix `*` on the previous
atom.  Other regex metacharacters never occur in the repository's
patterns; a pattern using them (or with a dangling quantifier such as the
one produced from `**`, which makes `new RegExp` throw) compiles to `none`
here and tests false. -/

/-- One regex atom of the pattern fragment used by the permission store. -/
inductive RAtom : Type
  | lit (c : Char)
  | anyc
  deriving DecidableEq, Repr

/-- A compiled regex item: an atom to be matched once, or starred. -/
inductive RItem : Type
  | once (a : RAtom)
  | star (a : RAtom)
  deriving DecidableEq, Repr

/-- Regex metacharacters outside the fragment we interpret. -/
def unsupportedMeta (c : Char) : Bool :=
  c = '+' || c = '?' || c = '(' || c = ')' || c = '[' || c = ']' ||
  c = '{' || c = '}' || c = '^' || c = '$' || c = '\\'

/-- Translate the atom denoted by one pattern character. -/
def atomOf (c : Char) : RAtom :=
  if c = '.' then .anyc else .lit c

/-- Compile a regex source string (already past `replace('*', '.*')`) into
items.  A `*` with nothing to repeat is a `SyntaxError` in JavaScript and
compiles to `none`. -/
def compileRegex : List Char → Option (List RItem)
  | [] => some []
  | c :: '*' :: rest =>
    if c = '*' || unsupportedMeta c then none
    else (compileRegex rest).map (RItem.star (atomOf c) :: ·)
  | c :: rest =>
    if c = '*' || unsupportedMeta c then none
    else (compileRegex rest).map (RItem.once (atomOf c) :: ·)

/-- Whether an atom matches one character.  JavaScript's `.` does not
match line terminators. -/
def atomMatch : RAtom → Char → Bool
  | .lit c', c => c' = c
  | .anyc, c => ¬ (c = '\n' ∨ c = '\r')

/-- The suffixes reachable from a string by consuming zero or more
characters that all match an atom — the candidate continuation points for
a starred atom. -/
def starSuffixes (a : RAtom) : List Char → List (List Char)
  | [] => [[]]
  | c :: cs => (c :: cs) :: (if atomMatch a c then starSuffixes a cs else [])

/-- Anchored match of a compiled regex against a prefix of the string
(`test` does not have to consume the whole string).  A starred atom may
consume any number of matching characters, so the rest of the regex is
tried at every reachable suffix. -/
def rMatch : List RItem → List Char → Bool
  | [], _ => true
  | .once a :: rest, s =>
    match s with
    | [] => false
    | c :: cs => atomMatch a c && rMatch rest cs
  | .star a :: rest, s => (starSuffixes a s).any fun s' => rMatch rest s'

/-- Unanchored search, as `RegExp.prototype.test`: try a match at every
suffix. -/
def rSearch (items : List RItem) : List Char → Bool
  | [] => rMatch items []
  | c :: cs => rMatch items (c :: cs) || rSearch items cs

/-- `s.replace('*', '.*')` with a string pattern: only the first `*` is
replaced. -/
def jsReplaceFirstStar : List Char → List Char
  | [] => []
  | '*' :: rest => '.' :: '*' :: rest
  | c :: rest => c :: jsReplaceFirstStar rest

/-- `new RegExp(perm.replace('*', '.*')).test(permission)` from
`SecurityContext.hasPermission`. -/
def regexTest (pat : String) (s : String) : Bool :=
  match compileRegex (jsReplaceFirstStar pat.data) with
  | some items => rSearch items s.data
  | none => false

/-! ## `SecurityContext` (src/core/security-context.js) -/

/-- The condition of the wildcard scan in `hasPermission`: the stored
pattern contains `*` (`perm.includes`) and its regex matches the query. -/
def wildMatches (k p : String) : Bool :=
  k.data.contains '*' && regexTest k p

/-- The wildcard scan of `hasPermission`: iterate the stored
`(pattern, granted)` pairs in insertion order and return the value of the
first pattern that contains `*` and whose regex matches the query. -/
def wildcardScan : List (String × Bool) → String → Bool
  | [], _ => false
  | (k, v) :: rest, p =>
    if wildMatches k p then v else wildcardScan rest p

/-- `SecurityContext.hasPermission`: exact-match lookup first, then the
wildcard scan, defaulting to `false`. -/
def hasPermission (m : List (String × Bool)) (p : String) : Bool :=
  match assocGet m p with
  | some v => v
  | none => wildcardScan m p

/-- `SecurityContext.grantPermission`: `permissions.set(permission, true)`. -/
def grantPermission (m : List (String × Bool)) (p : String) : List (String × Bool) :=
  assocSet m p true

/-- `SecurityContext.revokePermission`: `permissions.set(permission, false)`. -/
def revokePermission (m : List (String × Bool)) (p : String) : List (String × Bool) :=
  assocSet m p false

/-- One audit record pushed by `checkPermission`
(`{timestamp, permission, context, granted, source}`; the free-form
`context` object is carried here by its `source` field). -/
structure AuditEntry : Type where
  timestamp : Nat
  permission : String
  granted : Bool
  source : String
  deriving DecidableEq, Repr

/-- The mutable state of a `SecurityContext` relevant to permission checks. -/
structure SecState : Type where
  permissions : List (String × Bool)
  auditLog : List AuditEntry
  deriving DecidableEq, Repr

/-- `SecurityContext.checkPermission`: evaluate `hasPermission`, push one
audit entry, and return the boolean — it never throws. -/
def checkPermission (st : SecState) (p : String) (now : Nat) (source : String) :
    SecState × Bool :=
  let g := hasPermission st.permissions p
  ({ st with auditLog := st.auditLog ++ [⟨now, p, g, source⟩] }, g)

/-- `setDefaultPermissions` from `SecurityContext`, parameterised by
`process.cwd()`. -/
def defaultPermissions (cwd : String) : List (String × Bool) :=
  [ "command:execute", "command:help", "command:exit", "command:history",
    "command:alias",
    "fs:read:" ++ cwd ++ "/*", "fs:write:" ++ cwd ++ "/*",
    "net:connect:localhost:*",
    "proc:list", "proc:info" ].foldl grantPermission []

/-- `applyPolicy('sandbox')`: the rules of the built-in sandbox policy
applied in order (`deny` revokes, `allow` grants). -/
def applySandboxPolicy (m : List (String × Bool)) : List (String × Bool) :=
  grantPermission
    (revokePermission
      (revokePermission
        (revokePermission m "fs:write:/etc/*")
        "fs:write:/usr/*")
      "proc:kill:*")
    "fs:read:*"

/-- Security state after `setDefaultPermissions` followed by
`applyPolicy('sandbox')`, with an empty audit log. -/
def sandboxSecState : SecState :=
  { permissions := applySandboxPolicy (defaultPermissions "/home/user")
    auditLog := [] }

/-- The wildcard scan finds exactly the first stored pattern that contains
`*` and matches the query. -/
theorem wildcardScan_eq_find (m : List (String × Bool)) (p : String) :
    wildcardScan m p =
      (((m.find? fun e => wildMatches e.1 p).map Prod.snd).getD false) := by
  induction m with
  | nil => rfl
  | cons hd tl ih =>
    obtain ⟨k, v⟩ := hd
    unfold wildcardScan
    cases h : wildMatches k p with
    | true => simp [List.find?, h]
    | false => simp [List.find?, h, ih]

example : regexTest "proc:kill:*" "proc:kill:1" = true := by decide
example : regexTest "fs:read:/home/user/*" "proc:kill:1" = false := by decide
example : regexTest "net:connect:localhost:*" "proc:kill:1" = false := by decide
example : hasPermission sandboxSecState.permissions "proc:kill:1" = false := by decide
example : hasPermission sandboxSecState.permissions "fs:read:/anything" = true := by decide

/-- C5: permission lookup uses the exact-match entry when present (in
particular an exact entry written by `revokePermission` — an explicit
deny — decides the query, overriding any wildcard allow); otherwise the
first stored pattern containing `*` whose regex matches the query decides;
otherwise the result is deny.  Revoking a pattern, granted before or not,
stores an explicit `false` entry for it. -/
theorem permission_lookup_spec (m : List (String × Bool)) (p : String) :
    hasPermission m p =
      (match assocGet m p with
       | some v => v
       | none =>
         (((m.find? fun e => wildMatches e.1 p).map Prod.snd).getD false))
    ∧ hasPermission (revokePermission m p) p = false
    ∧ assocGet (revokePermission m p) p = some false := by
  refine ⟨?_, ?_, ?_⟩
  · unfold hasPermission
    cases assocGet m p <;> simp [wildcardScan_eq_find]
  · unfold hasPermission revokePermission
    rw [assocGet_assocSet_self]
  · exact assocGet_assocSet_self m p false

/-- `checkPermission` appends exactly one audit entry, carrying the
queried permission, the grant decision and the timestamp, and changes
nothing else. -/
theorem checkPermission_audit (st : SecState) (p : String) (now : Nat)
    (source : String) :
    (checkPermission st p now source).1.auditLog =
      st.auditLog ++ [⟨now, p, hasPermission st.permissions p, source⟩]
    ∧ (checkPermission st p now source).1.permissions = st.permissions
    ∧ (checkPermission st p now source).2 = hasPermission st.permissions p := by
  exact ⟨rfl, rfl, rfl⟩

/-- `n` successive permission checks starting from a state. -/
def iterChecks : Nat → SecState → SecState
  | 0, st => st
  | n + 1, st => iterChecks n (checkPermission st "proc:list" n "unknown").1

theorem iterChecks_length (n : Nat) (st : SecState) :
    (iterChecks n st).auditLog.length = st.auditLog.length + n := by
  induction n generalizing st with
  | zero => rfl
  | succ k ih =>
    show (iterChecks k _).auditLog.length = _
    rw [ih]
    simp [checkPermission]
    omega

/-- C6 counterexample: the audit log is not a bounded ring buffer — after
10 001 checks starting from an empty log it holds 10 001 entries, above the
claimed bound of 10 000; no entry is ever dropped. -/
theorem audit_log_unbounded_counterexample :
    (iterChecks 10001 ⟨[], []⟩).auditLog.length = 10001 ∧ 10000 < 10001 := by
  constructor
  · rw [iterChecks_length]; rfl
  · decide

/-- C6 (amended): every permission check appends exactly one audit entry
recording the permission, the grant decision and a timestamp, at the end of
the log; but the log is unbounded — `checkPermission` only ever pushes, so
the log grows by one per check and the oldest entry is never dropped. -/
theorem audit_append_only (st : SecState) (p : String) (now : Nat)
    (source : String) :
    (checkPermission st p now source).1.auditLog.length = st.auditLog.length + 1
    ∧ (checkPermission st p now source).1.auditLog.take st.auditLog.length =
        st.auditLog
    ∧ (checkPermission st p now source).1.auditLog =
        st.auditLog ++ [⟨now, p, hasPermission st.permissions p, source⟩] := by
  refine ⟨?_, ?_, rfl⟩
  · simp [checkPermission]
  · simp [checkPermission]

/-! ## The bridge's `proc.kill` (src/core/object-bridge.js)

```js
kill: async (pid, signal = 'SIGTERM') => {
    await this.shell.securityContext.checkPermission(`proc:kill:${pid}`);
    process.kill(pid, signal);
}
```

The boolean returned by `checkPermission` is discarded: whatever the check
decided, no error is raised and `process.kill` runs.  (`checkPermission`
is called with the default empty context, so the audit `source` is
`'unknown'`.) -/

/-- Outcome of one bridge surface call: the security state after its
permission check, the error it raised to the caller (if any), and whether
the underlying host operation was invoked. -/
structure BridgeCallResult : Type where
  sec : SecState
  raised : Option String
  performed : Bool
  deriving DecidableEq, Repr

/-- `proc.kill` of the object bridge: check `proc:kill:<pid>`, ignore the
result, and invoke `process.kill` unconditionally. -/
def procKill (st : SecState) (pid : Nat) (now : Nat) : BridgeCallResult :=
  let r := checkPermission st ("proc:kill:" ++ toString pid) now "unknown"
  { sec := r.1, raised := none, performed := true }

/-- C1: under the default permissions with the `sandbox` policy applied,
`proc:kill:1` is explicitly denied and the check's audit entry says
`granted = false` — yet `proc.kill(1)` raises no error and still invokes
`process.kill(1)`, because the bridge discards the boolean that
`checkPermission` returns (`checkPermission` never throws).  This
contradicts the engine's own convention (`CommandEngine.checkPermissions`
and the C++ kernel throw `Permission denied` when a check returns false). -/
theorem proc_kill_ignores_denial :
    hasPermission sandboxSecState.permissions "proc:kill:1" = false
    ∧ (procKill sandboxSecState 1 0).raised = none
    ∧ (procKill sandboxSecState 1 0).performed = true
    ∧ (procKill sandboxSecState 1 0).sec.auditLog.map
        (fun e => (e.permission, e.granted)) = [("proc:kill:1", false)] := by
  refine ⟨by decide, rfl, rfl, by decide⟩

/-! ## JavaScript string primitives

The engine manipulates strings with `trim`, `split`, `startsWith`,
`slice` and `includes`.  They are modelled on the character list of the
string so that every definition evaluates by kernel reduction. -/

/-- The whitespace characters relevant to the inputs of this shell
(`String.prototype.trim` strips them from both ends). -/
def isJsWS (c : Char) : Bool :=
  c = ' ' || c = '\t' || c = '\n' || c = '\r'

/-- `String.prototype.trim`. -/
def jsTrim (s : String) : String :=
  String.mk (((s.data.dropWhile isJsWS).reverse.dropWhile isJsWS).reverse)

/-- Split on every occurrence of a one-character separator, keeping empty
pieces, as `String.prototype.split('x')` does. -/
def splitCharsAux (sep : Char) : List Char → List Char → List (List Char)
  | [], acc => [acc.reverse]
  | c :: cs, acc =>
    if c = sep then acc.reverse :: splitCharsAux sep cs []
    else splitCharsAux sep cs (c :: acc)

/-- `s.split(sep)` for a one-character separator. -/
def jsSplit (s : String) (sep : Char) : List String :=
  (splitCharsAux sep s.data []).map String.mk

/-- Whether the first list is a prefix of the second. -/
def startsWithChars : List Char → List Char → Bool
  | [], _ => true
  | _ :: _, [] => false
  | p :: ps, c :: cs => p = c && startsWithChars ps cs

/-- `String.prototype.startsWith`. -/
def jsStartsWith (s pre : String) : Bool :=
  startsWithChars pre.data s.data

/-- `s.slice(n)` for a non-negative start index. -/
def jsSliceFrom (s : String) (n : Nat) : String :=
  String.mk (s.data.drop n)

/-- Search for an occurrence of the first list inside the second. -/
def hasSubstrAux (pat : List Char) : List Char → Bool
  | [] => startsWithChars pat []
  | c :: cs => startsWithChars pat (c :: cs) || hasSubstrAux pat cs

/-- `String.prototype.includes` for a string argument. -/
def jsIncludes (s sub : String) : Bool :=
  hasSubstrAux sub.data s.data

/-! ## `CommandEngine.parseCommand` (src/core/command-engine.js)

```js
const parts = input.split(' ').filter(part => part.trim());
const command = parts[0];
for (part of parts.slice(1)) {
    if (part.startsWith('--')) {
        const [key, value] = part.slice(2).split('=');
        flags[key] = value || true;
    } else if (part.startsWith('-')) {
        flags[part.slice(1)] = true;
    } else {
        args.push(part);
    }
}
```

There is no quote or escape handling anywhere in the tokeniser, and it can
never throw. -/

/-- A flag value: the string after `=`, or JavaScript `true` for a bare
flag (and for `--k=`, since the empty string is falsy in `value || true`). -/
inductive FlagVal : Type
  | boolTrue
  | str (s : String)
  deriving DecidableEq, Repr

/-- The result of `parseCommand`: `command` is `parts[0]`
(`none` models `undefined` when the input has no parts). -/
structure ParsedCommandJs : Type where
  command : Option String
  args : List String
  flags : List (String × FlagVal)
  deriving DecidableEq, Repr

/-- Fold one part into the `(args, flags)` accumulator, as the loop body
of `parseCommand`. -/
def parsePart (acc : List String × List (String × FlagVal)) (part : String) :
    List String × List (String × FlagVal) :=
  if jsStartsWith part "--" then
    let kv := jsSplit (jsSliceFrom part 2) '='
    let key := kv.headD ""
    let fv : FlagVal :=
      match kv.get? 1 with
      | none => .boolTrue
      | some v => if v = "" then .boolTrue else .str v
    (acc.1, assocSet acc.2 key fv)
  else if jsStartsWith part "-" then
    (acc.1, assocSet acc.2 (jsSliceFrom part 1) .boolTrue)
  else
    (acc.1 ++ [part], acc.2)

/-- `CommandEngine.parseCommand`. -/
def parseCommand (input : String) : ParsedCommandJs :=
  let parts := (jsSplit input ' ').filter fun p => !(jsTrim p = "")
  match parts with
  | [] => { command := none, args := [], flags := [] }
  | c :: rest =>
    let af := rest.foldl parsePart ([], [])
    { command := some c, args := af.1, flags := af.2 }

/-! ## `CommandEngine.execute` dispatch (src/core/command-engine.js)

```js
const trimmedInput = input.trim();
if (!trimmedInput) { return null; }
this.commandHistory.push({ input: trimmedInput, timestamp: Date.now(), context });
if (trimmedInput.includes('|')) { return this.executePipeline(trimmedInput, context); }
if (this.isObjectPipelineMode(trimmedInput)) { return this.executeObjectPipeline(...); }
return this.executeSingleCommand(trimmedInput, context);
```

`executePipeline` splits the input with `input.split('|').map(cmd => cmd.trim())`
and runs each segment as a single command. -/

/-- One command-history entry (`{input, timestamp, context}`; the opaque
caller context object is not modelled). -/
structure HistoryEntry : Type where
  input : String
  timestamp : Nat
  deriving DecidableEq, Repr

/-- The engine state relevant to `execute`'s entry path. -/
structure EngineState : Type where
  commandHistory : List HistoryEntry
  deriving DecidableEq, Repr

/-- Where `execute` sends a non-empty input: the pipeline path (with its
planned, already-trimmed segments), the object-pipeline evaluator, or the
single-command path. -/
inductive Dispatch : Type
  | pipeline (segments : List String)
  | objectPipeline
  | single (cmd : String)
  deriving DecidableEq, Repr

/-- `\w` of JavaScript regular expressions. -/
def isWordChar (c : Char) : Bool :=
  c.isAlphanum || c = '_'

/-- Anchored test of the pattern `\w+\.\w+\(` at the head of the list. -/
def methodCallAt (cs : List Char) : Bool :=
  match cs.span isWordChar with
  | ([], _) => false
  | (_ :: _, rest) =>
    match rest with
    | '.' :: r2 =>
      (match r2.span isWordChar with
       | ([], _) => false
       | (_ :: _, '(' :: _) => true
       | (_ :: _, _) => false)
    | _ => false

/-- Unanchored test of `/\w+\.\w+\(/`. -/
def hasMethodCall : List Char → Bool
  | [] => false
  | c :: cs => methodCallAt (c :: cs) || hasMethodCall cs

/-- `CommandEngine.isObjectPipelineMode`: the `/\w+\.\w+\(/` regex test, or
one of three literal substrings. -/
def isObjectPipelineMode (input : String) : Bool :=
  hasMethodCall input.data || jsIncludes input ".filter(" ||
  jsIncludes input ".map(" || jsIncludes input ".reduce("

/-- The entry path of `CommandEngine.execute`: trim, return `null` for a
blank line, push the history entry, then dispatch — the pipeline test is
just `trimmedInput.includes('|')`. -/
def engineExecute (st : EngineState) (input : String) (now : Nat) :
    EngineState × Option Dispatch :=
  let t := jsTrim input
  if t = "" then (st, none)
  else
    let st' : EngineState :=
      { st with commandHistory := st.commandHistory ++ [⟨t, now⟩] }
    if t.data.contains '|' then
      (st', some (.pipeline ((jsSplit t '|').map jsTrim)))
    else if isObjectPipelineMode t then (st', some .objectPipeline)
    else (st', some (.single t))

/-- Modelled from the spec (for comparison with the code): a `|` at top
level, i.e. outside single or double quotes and not part of a `||`
operator.  The scan carries the current quote character. -/
def specTopLevelPipeAux : List Char → Option Char → Bool
  | [], _ => false
  | c :: rest, some q =>
    if c = q then specTopLevelPipeAux rest none
    else specTopLevelPipeAux rest (some q)
  | '\'' :: rest, none => specTopLevelPipeAux rest (some '\'')
  | '"' :: rest, none => specTopLevelPipeAux rest (some '"')
  | '|' :: '|' :: rest, none => specTopLevelPipeAux rest none
  | '|' :: _, none => true
  | _ :: rest, none => specTopLevelPipeAux rest none

/-- Modelled from the spec: whether a line contains a top-level `|`
(outside quotes, not part of `||`). -/
def specTopLevelPipe (s : String) : Bool :=
  specTopLevelPipeAux s.data none

/-! ## `CommandEngine.executeSystemCommand` (src/core/command-engine.js)

```js
child.on('close', (code) => {
    if (code === 0) {
        resolve({ success: true, code, stdout: stdout.trim(), stderr: stderr.trim() });
    } else {
        reject(new Error(`Command failed with code ${code}: ${stderr}`));
    }
});
child.on('error', reject);
```

The child process is outside the model, so its observable behaviour — a
spawn error, or an exit code with the bytes it wrote to the captured
streams — is the input of the embedded function.  `stdout`/`stderr` stay
`''` unless `context.capture` wired the pipes. -/

/-- Observable behaviour of the spawned child. -/
inductive SpawnBehavior : Type
  | spawnError (msg : String)
  | exits (code : Int) (stdout stderr : String)
  deriving DecidableEq, Repr

/-- What the external-process path settles to: a resolved result object,
or a rejection (a thrown error for the awaiting caller). -/
inductive SysResult : Type
  | ok (success : Bool) (code : Int) (stdout stderr : String)
  | err (msg : String)
  deriving DecidableEq, Repr

/-- Whether the promise was rejected. -/
def SysResult.isError : SysResult → Bool
  | .ok _ _ _ _ => false
  | .err _ => true

/-- `CommandEngine.executeSystemCommand`. -/
def executeSystemCommand (capture : Bool) (b : SpawnBehavior) : SysResult :=
  match b with
  | .spawnError m => .err m
  | .exits code out errS =>
    let so := if capture then out else ""
    let se := if capture then errS else ""
    if code = 0 then .ok true code (jsTrim so) (jsTrim se)
    else .err ("Command failed with code " ++ toString code ++ ": " ++ se)

example : jsTrim "  a b  " = "a b" := by decide
example : jsSplit "a || b" '|' = ["a ", "", " b"] := by decide
example : parseCommand "ls -la --color=auto x" =
    { command := some "ls", args := ["x"],
      flags := [("la", .boolTrue), ("color", .str "auto")] } := by decide
example : isObjectPipelineMode "fs.dir(\".\")" = true := by decide
example : isObjectPipelineMode "ls -la" = false := by decide

/-- C10: a blank input (empty or whitespace-only) makes `execute` return
`null` before the history push and before any dispatch: the engine state
is unchanged and no command path is taken. -/
theorem execute_blank_input_no_dispatch (st : EngineState) (input : String)
    (now : Nat) (h : jsTrim input = "") :
    engineExecute st input now = (st, none) := by
  simp [engineExecute, h]

theorem execute_blank_input_no_dispatch_witness :
    jsTrim "   " = "" ∧ engineExecute ⟨[]⟩ "   " 0 = (⟨[]⟩, none) :=
  ⟨by decide, execute_blank_input_no_dispatch ⟨[]⟩ "   " 0 (by decide)⟩

/-- C4 counterexample: `echo "a|b"` has its only `|` inside double
quotes — the spec-side detector finds no top-level pipe — yet the engine
treats the line as a pipeline and splits it into the two segments
`echo "a` and `b"`, because the code's test is just
`trimmedInput.includes('|')`. -/
theorem pipeline_detection_counterexample :
    (engineExecute ⟨[]⟩ "echo \"a|b\"" 0).2 =
      some (.pipeline ["echo \"a", "b\""])
    ∧ specTopLevelPipe (jsTrim "echo \"a|b\"") = false := by
  exact ⟨by decide, by decide⟩

/-- C4 (amended): for every non-blank input, the engine takes the
pipeline path — planning the segments obtained by splitting the trimmed
line on every `|` and trimming them — exactly when the trimmed line
contains the character `|` anywhere, including inside quoted strings and
as part of `||`. -/
theorem pipeline_detection_amended (st : EngineState) (input : String)
    (now : Nat) (h : ¬ jsTrim input = "") :
    (engineExecute st input now).2 =
        some (.pipeline ((jsSplit (jsTrim input) '|').map jsTrim))
      ↔ (jsTrim input).data.contains '|' = true := by
  unfold engineExecute
  cases hc : (jsTrim input).data.contains '|' with
  | true =>
    have hm : '|' ∈ (jsTrim input).data := by simpa using hc
    simp [h, hc, hm]
  | false =>
    have hm : ¬ '|' ∈ (jsTrim input).data := by simpa using hc
    simp only [h, hc, if_neg h, if_neg hm, Bool.false_eq_true, iff_false]
    by_cases ho : isObjectPipelineMode (jsTrim input) = true <;> simp [ho]

theorem pipeline_detection_amended_witness :
    ¬ jsTrim "a | b" = ""
    ∧ (engineExecute ⟨[]⟩ "a | b" 0).2 = some (.pipeline ["a", "b"]) :=
  ⟨by decide,
   (pipeline_detection_amended ⟨[]⟩ "a | b" 0 (by decide)).mpr (by decide)⟩

/-- C3 counterexample: `parseCommand` has no quote handling — it splits
`ls "a b".txt` on the space inside the quotes and keeps the quote
characters, yielding the two positional args `"a` and `b".txt`, not the
single arg `a b.txt` the claim states. -/
theorem quoted_token_counterexample :
    (parseCommand "ls \"a b\".txt").args = ["\"a", "b\".txt"]
    ∧ ¬ (parseCommand "ls \"a b\".txt").args = ["a b.txt"] := by
  exact ⟨by decide, by decide⟩

/-- C3 (amended): tokenisation splits on spaces without interpreting
quotes; internal whitespace of a quoted token is not preserved and the
quote characters are stored with the tokens (no `SyntaxError` is raised —
`parseCommand` is a total function): `ls "a b".txt` parses to command `ls`
with the two positional args `"a` and `b".txt` and no flags. -/
theorem quoted_token_amended :
    (parseCommand "ls \"a b\".txt").command = some "ls"
    ∧ (parseCommand "ls \"a b\".txt").args = ["\"a", "b\".txt"]
    ∧ (parseCommand "ls \"a b\".txt").flags = [] := by
  exact ⟨by decide, by decide, by decide⟩

/-- C2 counterexample: an external command that spawns and exits with
code 1 makes `executeSystemCommand` reject — the caller sees a thrown
`Command failed with code 1: …` error, not a result map with
`success=false`. -/
theorem system_command_nonzero_rejects :
    executeSystemCommand true (.exits 1 "" "boom") =
      .err "Command failed with code 1: boom"
    ∧ (executeSystemCommand true (.exits 1 "" "boom")).isError = true := by
  exact ⟨by decide, by decide⟩

/-- C2 (amended): the external-process path rejects (raises an error to
the caller) exactly when the child exits non-zero or the spawn itself
fails; only exit code 0 resolves, and then always with `success=true` —
there is no `success=false` result value. -/
theorem system_command_exit_behavior (capture : Bool) (code : Int)
    (out errS m : String) :
    ((executeSystemCommand capture (.exits code out errS)).isError = true
        ↔ code ≠ 0)
    ∧ executeSystemCommand capture (.spawnError m) = .err m
    ∧ executeSystemCommand capture (.exits 0 out errS) =
        .ok true 0 (jsTrim (if capture then out else ""))
          (jsTrim (if capture then errS else "")) := by
  refine ⟨?_, rfl, by simp [executeSystemCommand]⟩
  by_cases hc : code = 0 <;> simp [executeSystemCommand, SysResult.isError, hc]

/-! ## `NexusShell` transactions (the `NexusShell` class)

`executeTransaction` snapshots `{currentDirectory, environment, aliases}`,
pushes a frame, runs the commands serially via `executeCommand`, and — if
any command throws — calls `rollbackTransaction`, which looks the frame up
by its unique id and restores the snapshot with `restoreSnapshot` before
re-throwing.  Commands are arbitrary state transformers here: a real
`executeCommand` may mutate any part of the shell state (including parts a
snapshot does not cover, kept in `residual`) before returning a value or
throwing. -/

/-- The process-global mutable shell state.  `residual` stands for the
mutable fields a snapshot does not capture (stats, audit log, history). -/
structure ShellState : Type where
  currentDirectory : String
  environment : List (String × String)
  aliases : List (String × String)
  residual : List String
  deriving DecidableEq, Repr

/-- `NexusShell.createSnapshot`: `{timestamp, currentDirectory,
{...environment}, new Map(aliases)}`. -/
structure TxSnapshot : Type where
  timestamp : Nat
  currentDirectory : String
  environment : List (String × String)
  aliases : List (String × String)
  deriving DecidableEq, Repr

/-- `NexusShell.createSnapshot`. -/
def createSnapshot (s : ShellState) (now : Nat) : TxSnapshot :=
  ⟨now, s.currentDirectory, s.environment, s.aliases⟩

/-- `NexusShell.restoreSnapshot`: writes the three captured fields back
and touches nothing else. -/
def restoreSnapshot (s : ShellState) (sn : TxSnapshot) : ShellState :=
  { s with
    currentDirectory := sn.currentDirectory
    environment := sn.environment
    aliases := sn.aliases }

/-- A command as the transaction loop sees it: it transforms the shell
state and either returns a result value or throws, leaving the mutations
it already made in place. -/
def TxCmd : Type := ShellState → ShellState × Except String String

/-- The `for (const command of commands)` loop of `executeTransaction`:
run serially, stop at the first thrown error. -/
def runTxCommands : List TxCmd → ShellState → ShellState × Except String (List String)
  | [], s => (s, .ok [])
  | c :: rest, s =>
    match c s with
    | (s', .ok v) =>
      match runTxCommands rest s' with
      | (s'', .ok vs) => (s'', .ok (v :: vs))
      | (s'', .error e) => (s'', .error e)
    | (s', .error e) => (s', .error e)

/-- `NexusShell.executeTransaction` (with no user `onRollback` callback,
as with the default empty options): snapshot, run the commands, and on an
error restore the snapshot and re-throw. -/
def executeTransaction (cmds : List TxCmd) (s : ShellState) (now : Nat) :
    ShellState × Except String (List String) :=
  let snap := createSnapshot s now
  match runTxCommands cmds s with
  | (s', .ok vs) => (s', .ok vs)
  | (s', .error e) => (restoreSnapshot s' snap, .error e)

/-- The `(cwd, env, aliases)` triple a snapshot protects. -/
def stateTriple (s : ShellState) :
    String × List (String × String) × List (String × String) :=
  (s.currentDirectory, s.environment, s.aliases)

/-- C7: whenever a transaction's command list throws, the rollback leaves
the `(currentDirectory, environment, aliases)` triple exactly as it was
when the transaction began — whatever the commands mutated before
failing. -/
theorem transaction_rollback_restores (cmds : List TxCmd) (s : ShellState)
    (now : Nat) (e : String)
    (h : (executeTransaction cmds s now).2 = .error e) :
    stateTriple (executeTransaction cmds s now).1 = stateTriple s := by
  unfold executeTransaction at h ⊢
  rcases hr : runTxCommands cmds s with ⟨s', r⟩
  cases r with
  | ok vs => rw [hr] at h; simp at h
  | error e' => simp [restoreSnapshot, createSnapshot, stateTriple]

/-- A concrete failing transaction body: changes the working directory
and some uncovered state, then throws. -/
def txFailCmd : TxCmd := fun s =>
  ({ s with
      currentDirectory := "/tmp"
      environment := assocSet s.environment "OLDPWD" s.currentDirectory
      residual := s.residual ++ ["cd /tmp"] },
   .error "boom")

/-- A concrete shell state before the transaction. -/
def txS0 : ShellState :=
  ⟨"/home/u", [("PATH", "/bin")], [("ll", "ls -l")], []⟩

theorem transaction_rollback_restores_witness :
    (executeTransaction [txFailCmd] txS0 7).2 = .error "boom"
    ∧ stateTriple (executeTransaction [txFailCmd] txS0 7).1 = stateTriple txS0 :=
  ⟨rfl, transaction_rollback_restores [txFailCmd] txS0 7 "boom" rfl⟩

/-! ## `ExecutionRecorder` (time-travel recording)

State and transitions of `startRecording`, `recordCommand`,
`recordCommandResult`, `createSnapshot` and `stopRecording`.  The
JavaScript `currentRecording` object is aliased inside the `recordings`
map, so every mutation of it is mirrored into the map entry here.
`captureSystemState`/`captureShellState` read host metrics and are outside
the model; a snapshot keeps its id, timestamp, type and description. -/

/-- One entry of `recording.commands`.  `recordCommand` creates it with
`{id, timestamp, input, context, systemState}` only; `result`, `error` and
`executionTime` stay absent (`none`) until `recordCommandResult` sets
them. -/
structure CommandRecord : Type where
  id : Nat
  timestamp : Nat
  input : String
  result : Option String
  error : Option String
  executionTime : Option Nat
  deriving DecidableEq, Repr

/-- One entry of the recorder's snapshot list. -/
structure RecSnapshot : Type where
  id : Nat
  timestamp : Nat
  kind : String
  description : String
  deriving DecidableEq, Repr

/-- One recording (`endTime`/`duration` are set by `stopRecording`). -/
structure Recording : Type where
  id : Nat
  name : String
  startTime : Nat
  endTime : Option Nat
  duration : Option Nat
  commands : List CommandRecord
  snapshots : List RecSnapshot
  deriving DecidableEq, Repr

/-- The `ExecutionRecorder` fields. -/
structure RecorderState : Type where
  recording : Bool
  recordings : List (Nat × Recording)
  currentRecording : Option Recording
  recordingId : Nat
  snapshots : List RecSnapshot
  deriving DecidableEq, Repr

/-- The recorder before any recording. -/
def recInit : RecorderState :=
  { recording := false, recordings := [], currentRecording := none,
    recordingId := 0, snapshots := [] }

/-- Write back a mutated current recording, mirroring the JavaScript
aliasing between `currentRecording` and its `recordings` map entry. -/
def setCurrent (st : RecorderState) (r : Recording) : RecorderState :=
  { st with
    currentRecording := some r
    recordings := assocSet st.recordings r.id r }

/-- `ExecutionRecorder.createSnapshot`: append to the recorder's snapshot
list and, while recording, to the current recording's. -/
def recCreateSnapshot (st : RecorderState) (kind desc : String) (now : Nat) :
    RecorderState × RecSnapshot :=
  let snap : RecSnapshot :=
    { id := st.snapshots.length + 1, timestamp := now, kind := kind,
      description := desc }
  let st' := { st with snapshots := st.snapshots ++ [snap] }
  if st'.recording then
    match st'.currentRecording with
    | some r => (setCurrent st' { r with snapshots := r.snapshots ++ [snap] }, snap)
    | none => (st', snap)
  else (st', snap)

/-- `ExecutionRecorder.startRecording`: throws (state untouched — the
guard is the first statement) when a recording is active; otherwise bumps
the id, installs a fresh recording and takes the `recording_start`
snapshot.  A `none` name models the absent (falsy) argument. -/
def startRecording (st : RecorderState) (name : Option String) (now : Nat) :
    RecorderState × Option String :=
  if st.recording then (st, some "Recording is already in progress")
  else
    let rid := st.recordingId + 1
    let rname :=
      name.getD ("recording_" ++ toString rid ++ "_" ++ toString now)
    let rec0 : Recording :=
      { id := rid, name := rname, startTime := now, endTime := none,
        duration := none, commands := [], snapshots := [] }
    let st1 : RecorderState :=
      { st with
        recordingId := rid
        currentRecording := some rec0
        recording := true
        recordings := assocSet st.recordings rid rec0 }
    ((recCreateSnapshot st1 "recording_start" "" now).1, none)

/-- `ExecutionRecorder.recordCommand`: while recording, push a command
entry with its input and timestamp; `result`, `error` and `executionTime`
are not part of the pushed object. -/
def recordCommand (st : RecorderState) (input : String) (now : Nat) :
    RecorderState :=
  if st.recording then
    match st.currentRecording with
    | some r =>
      setCurrent st
        { r with
          commands := r.commands ++
            [{ id := r.commands.length + 1, timestamp := now, input := input,
               result := none, error := none, executionTime := none }] }
    | none => st
  else st

/-- Replace the first command entry with the given id. -/
def updateFirstById (cid : Nat) (f : CommandRecord → CommandRecord) :
    List CommandRecord → List CommandRecord
  | [] => []
  | c :: rest =>
    if c.id = cid then f c :: rest else c :: updateFirstById cid f rest

/-- `ExecutionRecorder.recordCommandResult`: set `result`, `error` and
`executionTime` on the entry with the given id.  Nothing in the repository
ever calls it — `NexusShell.executeCommand` only calls `recordCommand`. -/
def recordCommandResult (st : RecorderState) (cid : Nat) (result : String)
    (err : Option String) (now : Nat) : RecorderState :=
  if st.recording then
    match st.currentRecording with
    | some r =>
      setCurrent st
        { r with
          commands := updateFirstById cid
            (fun c =>
              { c with
                result := some result, error := err,
                executionTime := some (now - c.timestamp) }) r.commands }
    | none => st
  else st

/-- `ExecutionRecorder.stopRecording`: throws when idle; otherwise stamps
`endTime`/`duration`, takes the `recording_end` snapshot, persists the
recording (host I/O, outside the model), clears the current recording and
returns it. -/
def stopRecording (st : RecorderState) (now : Nat) :
    RecorderState × Except String Recording :=
  if st.recording then
    match st.currentRecording with
    | some r =>
      let st1 := setCurrent st
        { r with endTime := some now, duration := some (now - r.startTime) }
      let st2 := (recCreateSnapshot st1 "recording_end" "" now).1
      match st2.currentRecording with
      | some r2 =>
        ({ st2 with recording := false, currentRecording := none }, .ok r2)
      | none => (st2, .error "No recording in progress")
    | none => (st, .error "No recording in progress")
  else (st, .error "No recording in progress")

/-- The recorder's part of `NexusShell.executeCommand`: when a recording
is active the input is recorded before execution; `recordCommandResult` is
never invoked afterwards. -/
def executeCommandRecords (st : RecorderState) (input : String) (now : Nat) :
    RecorderState :=
  if st.recording then recordCommand st input now else st

/-- C9: starting a recording while one is active throws
`Recording is already in progress` and leaves the whole recorder state —
flag, current recording, stored recordings, id counter — unchanged, so at
most one recording is ever active. -/
theorem start_recording_already_active (st : RecorderState)
    (name : Option String) (now : Nat) (h : st.recording = true) :
    startRecording st name now =
      (st, some "Recording is already in progress") := by
  simp [startRecording, h]

/-- A recorder with an active recording. -/
def recBusy : RecorderState := (startRecording recInit (some "r1") 0).1

theorem start_recording_already_active_witness :
    recBusy.recording = true
    ∧ startRecording recBusy none 5 =
        (recBusy, some "Recording is already in progress") :=
  ⟨rfl, start_recording_already_active recBusy none 5 rfl⟩

/-- The scenario of the claim: start a recording named `r1`, execute two
commands (`pwd`, `date`) through the shell, stop. -/
def recScenario : RecorderState × Except String Recording :=
  stopRecording
    (executeCommandRecords
      (executeCommandRecords ((startRecording recInit (some "r1") 0).1) "pwd" 1)
      "date" 2)
    3

/-- C8: the stopped recording does contain exactly one command entry per
executed command, each with its input populated — but `result` and
`executionTime` are never populated: `NexusShell.executeCommand` calls
`recordCommand` and never `recordCommandResult`, so every saved entry has
`result = undefined` and `executionTime = undefined`. -/
theorem recording_results_never_populated :
    (recScenario.2.map fun r =>
        (r.name, r.commands.map fun c => (c.input, c.result, c.executionTime)))
      = .ok ("r1", [("pwd", none, none), ("date", none, none)]) := by
  rfl

end NexusShell
